import Mathlib

/-!
Shallow embedding of the two-stage solar mini-grid technoeconomic pipeline
(`customer_scoring_algorithm.py`, `financial_projections_model.py`).

Modelling conventions:
* machine floats are modelled by exact rationals, and by reals where the
  source applies `np.log1p`;
* a per-cell missing value (pandas `NaN`) is modelled by `Option`;
* `numpy` float-to-int casting (`astype(int)`) truncates toward zero and is
  modelled by `Int.tdiv` on the numerator/denominator of the rational;
* `Series.round(1)` rounds to one decimal with ties to even (numpy `rint`
  semantics on the scaled value), modelled exactly on rationals;
* `pd.cut(..., bins=[0,40,70,100])` uses right-closed, left-open bins and
  produces a missing label for values outside `(0, 100]`, modelled by `none`;
* `sort_values('total_score', ascending=False)` is realised by
  `List.insertionSort` with the greater-or-equal-score relation, i.e. as a
  stable descending sort.  The source's default `kind='quicksort'` is not
  documented to be stable, so the order of equal scores in this model is one
  admissible outcome, not a guarantee of the program; the properties proved
  below about the sorted table (the tiers) are per-row and do not depend on
  the order of ties;
* DataFrame rows keep their original positional label through the sort; the
  label is the `idx` field below.
-/

namespace SolarMinigrid

/-! ### Global assumptions of `financial_projections_model.py` -/

def CUSTOMER_PENETRATION : ℚ := 0.30

def AVG_HOUSEHOLD_SIZE : ℚ := 5

def DAILY_KWH_PER_CUSTOMER : ℚ := 1.0

def SYSTEM_OVERSIZING : ℚ := 1.45

def BASELINE_GHI : ℚ := 5.5

def CAPEX_PER_KW : ℚ := 3000.0

def OPEX_PERCENT : ℚ := 0.04

def TARIFF_PER_KWH : ℚ := 0.60

def COLLECTION_RATE : ℚ := 0.85

def DISCOUNT_RATE : ℚ := 0.12

def PROJECT_LIFETIME : ℤ := 10

/-- `numpy` float-to-int64 cast: truncation toward zero. -/
def astypeInt (q : ℚ) : ℤ := Int.tdiv q.num q.den

/-- The raw-metric columns of one settlement row that stage 2 reads:
`pop`, `solar_ghi` (may be missing), `distance_to_grid_km`. -/
structure SiteIn where
  pop : ℚ
  solar_ghi : Option ℚ
  distance_to_grid_km : ℚ
deriving DecidableEq

/-- `households = settlements['pop'] / AVG_HOUSEHOLD_SIZE` -/
def households (s : SiteIn) : ℚ := s.pop / AVG_HOUSEHOLD_SIZE

/-- `(households * CUSTOMER_PENETRATION).astype(int)` -/
def estimated_customers (s : SiteIn) : ℤ :=
  astypeInt (households s * CUSTOMER_PENETRATION)

/-- `estimated_customers * DAILY_KWH_PER_CUSTOMER` -/
def estimated_demand_kwh_day (s : SiteIn) : ℚ :=
  (estimated_customers s : ℚ) * DAILY_KWH_PER_CUSTOMER

/-- `solar_ghi.fillna(BASELINE_GHI).replace(0, BASELINE_GHI) / BASELINE_GHI` -/
def ghi_factor (s : SiteIn) : ℚ :=
  (if s.solar_ghi.getD BASELINE_GHI = 0 then BASELINE_GHI
   else s.solar_ghi.getD BASELINE_GHI) / BASELINE_GHI

/-- `(estimated_demand_kwh_day / (ghi_factor * 4)) * SYSTEM_OVERSIZING` -/
def system_size_kw (s : SiteIn) : ℚ :=
  estimated_demand_kwh_day s / (ghi_factor s * 4) * SYSTEM_OVERSIZING

/-- `1 + (distance_to_grid_km / 100) * 0.1` -/
def logistics_mult (s : SiteIn) : ℚ :=
  1 + s.distance_to_grid_km / 100 * 0.1

/-- `system_size_kw * CAPEX_PER_KW * logistics_mult` -/
def capex_estimate_usd (s : SiteIn) : ℚ :=
  system_size_kw s * CAPEX_PER_KW * logistics_mult s

/-- `capex_estimate_usd * OPEX_PERCENT` -/
def opex_annual_usd (s : SiteIn) : ℚ :=
  capex_estimate_usd s * OPEX_PERCENT

/-- `estimated_demand_kwh_day * 365` -/
def annual_energy_sales (s : SiteIn) : ℚ := estimated_demand_kwh_day s * 365

/-- `annual_energy_sales * TARIFF_PER_KWH * COLLECTION_RATE` -/
def revenue_annual_usd (s : SiteIn) : ℚ :=
  annual_energy_sales s * TARIFF_PER_KWH * COLLECTION_RATE

/-- `annual_cashflow = revenue_annual_usd - opex_annual_usd` -/
def annual_cashflow (s : SiteIn) : ℚ :=
  revenue_annual_usd s - opex_annual_usd s

/-- `np.where(annual_cashflow > 0, capex_estimate_usd / annual_cashflow, 999)` -/
def payback_years (s : SiteIn) : ℚ :=
  if 0 < annual_cashflow s then capex_estimate_usd s / annual_cashflow s else 999

/-- `(1 - (1 + DISCOUNT_RATE) ** (-PROJECT_LIFETIME)) / DISCOUNT_RATE` -/
def annuity_factor : ℚ :=
  (1 - (1 + DISCOUNT_RATE) ^ (-PROJECT_LIFETIME)) / DISCOUNT_RATE

/-- `-capex_estimate_usd + (annual_cashflow * annuity_factor)` -/
def npv_10yr_usd (s : SiteIn) : ℚ :=
  -capex_estimate_usd s + annual_cashflow s * annuity_factor

/-- `(annual_cashflow / capex_estimate_usd) * 100`, then
`replace([inf, -inf], 0).fillna(0)`.  In exact arithmetic the only source of
`inf`/`-inf`/`NaN` in this expression is a zero `capex_estimate_usd`, so the
cleanup step is the zero-capex guard. -/
def simple_yield_percent (s : SiteIn) : ℚ :=
  if capex_estimate_usd s = 0 then 0
  else annual_cashflow s / capex_estimate_usd s * 100

/-- One row of the stage-2 output table: the input columns plus every
financial column added by `run_financial_projections`. -/
structure SiteFin where
  site : SiteIn
  estimated_customers : ℤ
  estimated_demand_kwh_day : ℚ
  system_size_kw : ℚ
  capex_estimate_usd : ℚ
  opex_annual_usd : ℚ
  revenue_annual_usd : ℚ
  annual_cashflow_usd : ℚ
  payback_years : ℚ
  npv_10yr_usd : ℚ
  simple_yield_percent : ℚ
deriving DecidableEq

/-- Phases 1–3 of `run_financial_projections`, per row. -/
def annotateSite (s : SiteIn) : SiteFin where
  site := s
  estimated_customers := estimated_customers s
  estimated_demand_kwh_day := estimated_demand_kwh_day s
  system_size_kw := system_size_kw s
  capex_estimate_usd := capex_estimate_usd s
  opex_annual_usd := opex_annual_usd s
  revenue_annual_usd := revenue_annual_usd s
  annual_cashflow_usd := annual_cashflow s
  payback_years := payback_years s
  npv_10yr_usd := npv_10yr_usd s
  simple_yield_percent := simple_yield_percent s

/-- `Series.round(1)`: round to one decimal digit, ties to the even tenth. -/
def round1 (q : ℚ) : ℚ :=
  (if q * 10 - ⌊q * 10⌋ < 1 / 2 then (⌊q * 10⌋ : ℚ)
   else if 1 / 2 < q * 10 - ⌊q * 10⌋ then (⌊q * 10⌋ : ℚ) + 1
   else if ⌊q * 10⌋ % 2 = 0 then (⌊q * 10⌋ : ℚ) else (⌊q * 10⌋ : ℚ) + 1) / 10

/-- `settlements[cols_to_round] = settlements[cols_to_round].round(1)` with
`cols_to_round = ['system_size_kw', 'capex_estimate_usd',
'revenue_annual_usd', 'npv_10yr_usd', 'payback_years',
'simple_yield_percent']`; every other column is untouched. -/
def roundSite (r : SiteFin) : SiteFin :=
  { r with
    system_size_kw := round1 r.system_size_kw
    capex_estimate_usd := round1 r.capex_estimate_usd
    revenue_annual_usd := round1 r.revenue_annual_usd
    npv_10yr_usd := round1 r.npv_10yr_usd
    payback_years := round1 r.payback_years
    simple_yield_percent := round1 r.simple_yield_percent }

/-- `(settlements['npv_10yr_usd'] > 0) & (settlements['payback_years'] < 7)` -/
def isViableSite (r : SiteFin) : Bool :=
  decide (0 < r.npv_10yr_usd) && decide (r.payback_years < 7)

/-- The two stage-2 result tables: the full annotated table (written as
GeoJSON) and the viable subset (written as CSV). -/
structure Stage2Output where
  settlements : List SiteFin
  viable_sites : List SiteFin
deriving DecidableEq

/-- Pure core of `run_financial_projections`: annotate every row, take the
viable subset as a copy of the still-unrounded rows, then round the
reporting columns of the full table only. -/
def run_financial_projections (input : List SiteIn) : Stage2Output :=
  let settlements := input.map annotateSite
  let viable_sites := settlements.filter isViableSite
  let rounded := settlements.map roundSite
  { settlements := rounded, viable_sites := viable_sites }

/-! ### Stage 1: rank, tier and total score
(`calculate_viability_scores`, lines 99–121) -/

/-- The labels of `pd.cut(..., labels=['Low', 'Medium', 'High'])`. -/
inductive Tier where
  | Low
  | Medium
  | High
deriving DecidableEq

/-- `pd.cut(total_score, bins=[0, 40, 70, 100], labels=['Low','Medium','High'])`
for one cell: right-closed, left-open bins `(0,40]`, `(40,70]`, `(70,100]`;
a value outside `(0, 100]` gets a missing label (`NaN`), modelled `none`. -/
def viability_tier (x : ℚ) : Option Tier :=
  if 0 < x ∧ x ≤ 40 then some Tier.Low
  else if 40 < x ∧ x ≤ 70 then some Tier.Medium
  else if 70 < x ∧ x ≤ 100 then some Tier.High
  else none

/-- `total_score` as summed at lines 107–110: the five sub-score columns
weighted by the `weights` dict, in its insertion order. -/
def total_score (market_size_score revenue_potential_score cost_efficiency_score
    accessibility_score strategic_value_score : ℚ) : ℚ :=
  market_size_score * 0.25 + revenue_potential_score * 0.25 +
    cost_efficiency_score * 0.20 + accessibility_score * 0.15 +
    strategic_value_score * 0.15

/-- A settlement row entering the sort step: its original positional label
and its `total_score` column.  All other columns ride along unchanged and
play no role in ranking or tiering. -/
structure ScoredRow where
  idx : ℕ
  total_score : ℚ
deriving DecidableEq

/-- A settlement row after the rank-and-tier step. -/
structure RankedRow where
  idx : ℕ
  total_score : ℚ
  rank : ℕ
  tier : Option Tier
deriving DecidableEq

/-- The sort key of `sort_values('total_score', ascending=False)`:
`a` may precede `b` exactly when `a`'s score is at least `b`'s. -/
def byScoreDesc (a b : ScoredRow) : Prop := b.total_score ≤ a.total_score

instance : DecidableRel byScoreDesc :=
  fun a b => inferInstanceAs (Decidable (b.total_score ≤ a.total_score))

instance : IsTotal ScoredRow byScoreDesc :=
  ⟨fun a b => le_total b.total_score a.total_score⟩

instance : IsTrans ScoredRow byScoreDesc :=
  ⟨fun _ _ _ hab hbc => le_trans hbc hab⟩

/-- Lines 113–121 of `calculate_viability_scores`: sort the rows by
`total_score` descending (tie order is that of a stable sort, one admissible
outcome of the source's unstable default quicksort), assign
`rank = range(1, len + 1)` down the sorted order, and cut `total_score` into
tiers. -/
def rank_and_tier (scores : List ℚ) : List RankedRow :=
  let settlements := scores.enum.map (fun p => ScoredRow.mk p.1 p.2)
  let sorted := settlements.insertionSort byScoreDesc
  sorted.enum.map (fun p =>
    RankedRow.mk p.2.idx p.2.total_score (p.1 + 1) (viability_tier p.2.total_score))

/-! ### Stage 1: `normalize_score` -/

/-- `series.fillna(0)` followed by `np.log1p` when `log_scale` is set. -/
noncomputable def fillAndTransform (series : List (Option ℝ)) (log_scale : Bool) :
    List ℝ :=
  let s := series.map (fun v => v.getD 0)
  if log_scale then s.map (fun x => Real.log (1 + x)) else s

/-- `normalize_score(series, reverse, log_scale)`: min-max scale the filled,
optionally log-transformed column to `[0, 100]`; if every value is identical
return 50 everywhere; if `reverse`, return `100 - normalized`. -/
noncomputable def normalize_score (series : List (Option ℝ))
    (reverse : Bool) (log_scale : Bool) : List ℝ :=
  match fillAndTransform series log_scale with
  | [] => []
  | a :: t =>
    let min_val := t.foldl min a
    let max_val := t.foldl max a
    if max_val = min_val then (a :: t).map (fun _ => 50)
    else
      let normalized := (a :: t).map (fun x => (x - min_val) / (max_val - min_val) * 100)
      if reverse then normalized.map (fun x => 100 - x) else normalized

/-! ### Helper lemmas -/

theorem astypeInt_of_nonneg (q : ℚ) (h : 0 ≤ q) : astypeInt q = ⌊q⌋ := by
  unfold astypeInt
  rw [Rat.floor_def, Int.tdiv_eq_ediv (Rat.num_nonneg.mpr h) (Int.ofNat_nonneg _)]

theorem ghi_factor_pos (s : SiteIn) (hg : ∀ g ∈ s.solar_ghi, 0 ≤ g) :
    0 < ghi_factor s := by
  unfold ghi_factor
  have hb : (0 : ℚ) < BASELINE_GHI := by norm_num [BASELINE_GHI]
  apply div_pos _ hb
  split_ifs with h
  · exact hb
  · rcases hG : s.solar_ghi with _ | g
    · simp only [hG, Option.getD]
      exact hb
    · have hg0 : 0 ≤ g := hg g hG
      simp only [hG, Option.getD] at h ⊢
      exact lt_of_le_of_ne hg0 (Ne.symm h)

theorem estimated_customers_nonneg (s : SiteIn) (hp : 0 ≤ s.pop) :
    0 ≤ estimated_customers s := by
  unfold estimated_customers astypeInt
  have hq : (0 : ℚ) ≤ households s * CUSTOMER_PENETRATION := by
    unfold households
    exact mul_nonneg (div_nonneg hp (by norm_num [AVG_HOUSEHOLD_SIZE]))
      (by norm_num [CUSTOMER_PENETRATION])
  exact Int.tdiv_nonneg (Rat.num_nonneg.mpr hq) (Int.ofNat_nonneg _)

theorem estimated_demand_nonneg (s : SiteIn) (hp : 0 ≤ s.pop) :
    0 ≤ estimated_demand_kwh_day s := by
  unfold estimated_demand_kwh_day
  have h := estimated_customers_nonneg s hp
  exact mul_nonneg (by exact_mod_cast h) (by norm_num [DAILY_KWH_PER_CUSTOMER])

theorem capex_nonneg (s : SiteIn) (hp : 0 ≤ s.pop)
    (hd : 0 ≤ s.distance_to_grid_km) (hg : ∀ g ∈ s.solar_ghi, 0 ≤ g) :
    0 ≤ capex_estimate_usd s := by
  unfold capex_estimate_usd system_size_kw logistics_mult
  have h1 := estimated_demand_nonneg s hp
  have h2 := ghi_factor_pos s hg
  have h3 : (0 : ℚ) ≤ 1 + s.distance_to_grid_km / 100 * 0.1 := by linarith
  have h4 : (0 : ℚ) ≤ estimated_demand_kwh_day s / (ghi_factor s * 4) :=
    div_nonneg h1 (by linarith)
  have h5 : (0 : ℚ) ≤ estimated_demand_kwh_day s / (ghi_factor s * 4) *
      SYSTEM_OVERSIZING * CAPEX_PER_KW := by
    apply mul_nonneg (mul_nonneg h4 _) <;> norm_num [SYSTEM_OVERSIZING, CAPEX_PER_KW]
  exact mul_nonneg h5 h3

/-! ### Claims about the Financial Modeler -/

/-- C4. `payback_years` is the sentinel 999 whenever `annual_cashflow_usd ≤ 0`
(so division by zero never decides the stored value and payback is never
negative), and otherwise equals `capex_estimate_usd / annual_cashflow_usd`
exactly; for raw metrics of the right sign the stored payback is nonnegative. -/
theorem payback_years_spec (s : SiteIn) :
    ((annotateSite s).annual_cashflow_usd ≤ 0 → (annotateSite s).payback_years = 999) ∧
    (0 < (annotateSite s).annual_cashflow_usd →
      (annotateSite s).payback_years =
        (annotateSite s).capex_estimate_usd / (annotateSite s).annual_cashflow_usd) ∧
    (0 ≤ s.pop → 0 ≤ s.distance_to_grid_km → (∀ g ∈ s.solar_ghi, 0 ≤ g) →
      0 ≤ (annotateSite s).payback_years) := by
  simp only [annotateSite]
  refine ⟨?_, ?_, ?_⟩
  · intro h
    unfold payback_years
    rw [if_neg (not_lt.mpr h)]
  · intro h
    unfold payback_years
    rw [if_pos h]
  · intro hp hd hg
    unfold payback_years
    split_ifs with h
    · exact div_nonneg (capex_nonneg s hp hd hg) (le_of_lt h)
    · norm_num

theorem customers_of_thousand : estimated_customers ⟨1000, some 5.5, 0⟩ = 60 := by
  unfold estimated_customers
  rw [astypeInt_of_nonneg _
      (by norm_num [households, AVG_HOUSEHOLD_SIZE, CUSTOMER_PENETRATION]),
    show households ⟨1000, some 5.5, 0⟩ * CUSTOMER_PENETRATION = ((60 : ℤ) : ℚ) by
      norm_num [households, AVG_HOUSEHOLD_SIZE, CUSTOMER_PENETRATION]]
  exact Int.floor_intCast 60

theorem cashflow_of_thousand : annual_cashflow ⟨1000, some 5.5, 0⟩ = 8559 := by
  simp only [annual_cashflow, revenue_annual_usd, annual_energy_sales,
    estimated_demand_kwh_day, customers_of_thousand, opex_annual_usd,
    capex_estimate_usd, system_size_kw, ghi_factor, logistics_mult,
    Option.getD_some]
  norm_num [DAILY_KWH_PER_CUSTOMER, SYSTEM_OVERSIZING, BASELINE_GHI,
    CAPEX_PER_KW, OPEX_PERCENT, TARIFF_PER_KWH, COLLECTION_RATE]

theorem capex_of_thousand : capex_estimate_usd ⟨1000, some 5.5, 0⟩ = 65250 := by
  simp only [capex_estimate_usd, system_size_kw, estimated_demand_kwh_day,
    customers_of_thousand, ghi_factor, logistics_mult, Option.getD_some]
  norm_num [DAILY_KWH_PER_CUSTOMER, SYSTEM_OVERSIZING, BASELINE_GHI, CAPEX_PER_KW]

theorem payback_years_spec_witness :
    (annotateSite ⟨1000, some 5.5, 0⟩).payback_years = 65250 / 8559 ∧
    0 ≤ (annotateSite ⟨1000, some 5.5, 0⟩).payback_years := by
  have h := payback_years_spec ⟨1000, some 5.5, 0⟩
  constructor
  · rw [h.2.1 (by simp only [annotateSite]; rw [cashflow_of_thousand]; norm_num)]
    simp only [annotateSite]
    rw [cashflow_of_thousand, capex_of_thousand]
  · refine h.2.2 (by norm_num) (by norm_num) ?_
    intro g hg
    have hg5 : g = (5.5 : ℚ) := by simpa using hg.symm
    rw [hg5]
    norm_num

/-- C8. `simple_yield_percent` is 0 whenever `capex_estimate_usd = 0`
(whatever the sign of the cash flow), and otherwise is exactly
`annual_cashflow_usd / capex_estimate_usd * 100`; no infinite or undefined
value is ever stored. -/
theorem simple_yield_spec (s : SiteIn) :
    ((annotateSite s).capex_estimate_usd = 0 →
      (annotateSite s).simple_yield_percent = 0) ∧
    ((annotateSite s).capex_estimate_usd ≠ 0 →
      (annotateSite s).simple_yield_percent =
        (annotateSite s).annual_cashflow_usd / (annotateSite s).capex_estimate_usd * 100) := by
  simp only [annotateSite]
  unfold simple_yield_percent
  constructor
  · intro h
    rw [if_pos h]
  · intro h
    rw [if_neg h]

theorem customers_of_zero_pop : estimated_customers ⟨0, some 5.5, 0⟩ = 0 := by
  unfold estimated_customers
  rw [astypeInt_of_nonneg _
      (by norm_num [households, AVG_HOUSEHOLD_SIZE, CUSTOMER_PENETRATION]),
    show households ⟨0, some 5.5, 0⟩ * CUSTOMER_PENETRATION = 0 by
      norm_num [households, AVG_HOUSEHOLD_SIZE, CUSTOMER_PENETRATION]]
  exact Int.floor_zero

theorem capex_of_zero_pop : capex_estimate_usd ⟨0, some 5.5, 0⟩ = 0 := by
  simp only [capex_estimate_usd, system_size_kw, estimated_demand_kwh_day,
    customers_of_zero_pop, ghi_factor, logistics_mult, Option.getD_some]
  norm_num

theorem simple_yield_spec_witness :
    (annotateSite ⟨0, some 5.5, 0⟩).capex_estimate_usd = 0 ∧
    (annotateSite ⟨0, some 5.5, 0⟩).simple_yield_percent = 0 :=
  ⟨by simp only [annotateSite]; exact capex_of_zero_pop,
   (simple_yield_spec ⟨0, some 5.5, 0⟩).1
     (by simp only [annotateSite]; exact capex_of_zero_pop)⟩

/-- C9. `estimated_customers` is the floor of
`pop / AVG_HOUSEHOLD_SIZE * CUSTOMER_PENETRATION` (for the nonnegative
populations the data model admits, where the numpy toward-zero cast and the
floor agree), and `estimated_demand_kwh_day` is
`estimated_customers * DAILY_KWH_PER_CUSTOMER`. -/
theorem estimated_customers_spec (s : SiteIn) (hp : 0 ≤ s.pop) :
    (annotateSite s).estimated_customers =
      ⌊s.pop / AVG_HOUSEHOLD_SIZE * CUSTOMER_PENETRATION⌋ ∧
    (annotateSite s).estimated_demand_kwh_day =
      ((annotateSite s).estimated_customers : ℚ) * DAILY_KWH_PER_CUSTOMER := by
  simp only [annotateSite]
  constructor
  · unfold estimated_customers households
    rw [astypeInt_of_nonneg _
        (mul_nonneg (div_nonneg hp (by norm_num [AVG_HOUSEHOLD_SIZE]))
          (by norm_num [CUSTOMER_PENETRATION]))]
  · unfold estimated_demand_kwh_day
    rfl

theorem estimated_customers_spec_witness :
    0 ≤ ((1000 : ℚ)) ∧
    (annotateSite ⟨1000, some 5.5, 0⟩).estimated_customers =
      ⌊(1000 : ℚ) / AVG_HOUSEHOLD_SIZE * CUSTOMER_PENETRATION⌋ ∧
    (annotateSite ⟨1000, some 5.5, 0⟩).estimated_customers = 60 ∧
    (annotateSite ⟨1000, some 5.5, 0⟩).estimated_demand_kwh_day = 60 := by
  have h := estimated_customers_spec ⟨1000, some 5.5, 0⟩ (by norm_num)
  have hc : (annotateSite ⟨1000, some 5.5, 0⟩).estimated_customers = 60 := by
    simp only [annotateSite]
    exact customers_of_thousand
  refine ⟨by norm_num, h.1, hc, ?_⟩
  simp only [annotateSite, estimated_demand_kwh_day, customers_of_thousand,
    DAILY_KWH_PER_CUSTOMER]
  norm_num

theorem customers_of_tenK : estimated_customers ⟨10000, some 7, 0⟩ = 600 := by
  unfold estimated_customers
  rw [astypeInt_of_nonneg _
      (by norm_num [households, AVG_HOUSEHOLD_SIZE, CUSTOMER_PENETRATION]),
    show households ⟨10000, some 7, 0⟩ * CUSTOMER_PENETRATION = ((600 : ℤ) : ℚ) by
      norm_num [households, AVG_HOUSEHOLD_SIZE, CUSTOMER_PENETRATION]]
  exact Int.floor_intCast 600

theorem cashflow_of_tenK : annual_cashflow ⟨10000, some 7, 0⟩ = 638280 / 7 := by
  simp only [annual_cashflow, revenue_annual_usd, annual_energy_sales,
    estimated_demand_kwh_day, customers_of_tenK, opex_annual_usd,
    capex_estimate_usd, system_size_kw, ghi_factor, logistics_mult,
    Option.getD_some]
  norm_num [DAILY_KWH_PER_CUSTOMER, SYSTEM_OVERSIZING, BASELINE_GHI,
    CAPEX_PER_KW, OPEX_PERCENT, TARIFF_PER_KWH, COLLECTION_RATE]

theorem capex_of_tenK : capex_estimate_usd ⟨10000, some 7, 0⟩ = 3588750 / 7 := by
  simp only [capex_estimate_usd, system_size_kw, estimated_demand_kwh_day,
    customers_of_tenK, ghi_factor, logistics_mult, Option.getD_some]
  norm_num [DAILY_KWH_PER_CUSTOMER, SYSTEM_OVERSIZING, BASELINE_GHI, CAPEX_PER_KW]

theorem payback_of_tenK : payback_years ⟨10000, some 7, 0⟩ = 39875 / 7092 := by
  unfold payback_years
  rw [cashflow_of_tenK, capex_of_tenK,
    if_pos (show (0 : ℚ) < 638280 / 7 by norm_num)]
  norm_num

theorem npv_pos_of_tenK : 0 < npv_10yr_usd ⟨10000, some 7, 0⟩ := by
  unfold npv_10yr_usd annuity_factor
  rw [cashflow_of_tenK, capex_of_tenK]
  norm_num [DISCOUNT_RATE, PROJECT_LIFETIME]

theorem isViable_of_tenK :
    isViableSite (annotateSite ⟨10000, some 7, 0⟩) = true := by
  simp only [isViableSite, annotateSite, Bool.and_eq_true, decide_eq_true_eq]
  constructor
  · exact npv_pos_of_tenK
  · rw [payback_of_tenK]
    norm_num

/-- C6. The Bankability Filter selects exactly the rows with
`npv_10yr_usd > 0` and `payback_years < 7`; the result is a derived subset
(a sublist of the annotated table, which filtering leaves intact), while the
full annotated table is retained alongside as a distinct output with one row
per input row (its reporting columns rounded for output). -/
theorem viable_sites_spec (input : List SiteIn) :
    (run_financial_projections input).viable_sites =
      (input.map annotateSite).filter isViableSite ∧
    (∀ r, r ∈ (run_financial_projections input).viable_sites ↔
      r ∈ input.map annotateSite ∧ 0 < r.npv_10yr_usd ∧ r.payback_years < 7) ∧
    ((run_financial_projections input).viable_sites.Sublist
      (input.map annotateSite)) ∧
    (run_financial_projections input).settlements =
      (input.map annotateSite).map roundSite ∧
    (run_financial_projections input).settlements.length = input.length := by
  refine ⟨rfl, ?_, List.filter_sublist _, rfl, by
    simp [run_financial_projections]⟩
  intro r
  show r ∈ (input.map annotateSite).filter isViableSite ↔ _
  simp [List.mem_filter, isViableSite, and_assoc]

theorem viable_sites_spec_witness :
    (run_financial_projections [⟨10000, some 7, 0⟩]).viable_sites =
      [annotateSite ⟨10000, some 7, 0⟩] := by
  have h := viable_sites_spec [⟨10000, some 7, 0⟩]
  rw [h.1]
  simp [List.filter_cons, isViable_of_tenK]

/-- C10. The bankability selection is computed from the unrounded financial
values: the viable subset is the filter of the unrounded annotated rows
(taken before the rounding step), each of its rows is an unrounded annotated
row, and the one-decimal rounding touches only the full table that is
reported separately.  Hence rounding can change neither the selection nor
any field written to the viable CSV. -/
theorem filter_before_round_spec (input : List SiteIn) :
    (run_financial_projections input).viable_sites =
      (input.map annotateSite).filter isViableSite ∧
    (run_financial_projections input).settlements =
      ((input.map annotateSite).map roundSite) ∧
    (∀ r ∈ (run_financial_projections input).viable_sites,
      r ∈ input.map annotateSite) := by
  refine ⟨rfl, rfl, ?_⟩
  intro r hr
  have hr' : r ∈ (input.map annotateSite).filter isViableSite := hr
  exact List.mem_of_mem_filter hr'

theorem filter_before_round_spec_witness :
    annotateSite ⟨10000, some 7, 0⟩ ∈ [⟨10000, some 7, 0⟩].map annotateSite := by
  have h := filter_before_round_spec [⟨10000, some 7, 0⟩]
  apply h.2.2
  show annotateSite _ ∈ (run_financial_projections _).viable_sites
  rw [h.1]
  simp [List.filter_cons, isViable_of_tenK]

theorem customers_of_dist33 : estimated_customers ⟨1000, some 5.5, 33⟩ = 60 := by
  unfold estimated_customers
  rw [astypeInt_of_nonneg _
      (by norm_num [households, AVG_HOUSEHOLD_SIZE, CUSTOMER_PENETRATION]),
    show households ⟨1000, some 5.5, 33⟩ * CUSTOMER_PENETRATION = ((60 : ℤ) : ℚ) by
      norm_num [households, AVG_HOUSEHOLD_SIZE, CUSTOMER_PENETRATION]]
  exact Int.floor_intCast 60

theorem opex_of_dist33 : opex_annual_usd ⟨1000, some 5.5, 33⟩ = 269613 / 100 := by
  simp only [opex_annual_usd, capex_estimate_usd, system_size_kw,
    estimated_demand_kwh_day, customers_of_dist33, ghi_factor, logistics_mult,
    Option.getD_some]
  norm_num [DAILY_KWH_PER_CUSTOMER, SYSTEM_OVERSIZING, BASELINE_GHI,
    CAPEX_PER_KW, OPEX_PERCENT]

/-- C7 counterexample. At a site 33 km from the grid the reported
`opex_annual_usd` is 2696.13, which is not rounded to one decimal place:
`opex_annual_usd` (and `annual_cashflow_usd`) are missing from
`cols_to_round`, so the claim that every monetary output is rounded fails. -/
theorem rounding_columns_counterexample :
    ((run_financial_projections [⟨1000, some 5.5, 33⟩]).settlements.map
      SiteFin.opex_annual_usd) = [269613 / 100] ∧
    round1 (269613 / 100) = 26961 / 10 ∧
    (269613 / 100 : ℚ) ≠ 26961 / 10 := by
  have hf : ⌊(269613 : ℚ) / 100 * 10⌋ = 26961 := Int.floor_eq_iff.mpr (by norm_num)
  refine ⟨?_, ?_, by norm_num⟩
  · simp [run_financial_projections, roundSite, annotateSite, opex_of_dist33]
  · unfold round1
    rw [hf, if_pos (by norm_num)]
    norm_num

/-- C7 (amended). After stage 2, exactly the six `cols_to_round` columns —
`system_size_kw`, `capex_estimate_usd`, `revenue_annual_usd`,
`npv_10yr_usd`, `payback_years`, `simple_yield_percent` — are rounded to one
decimal place in the reported full table; `opex_annual_usd` and
`annual_cashflow_usd` are reported unrounded. -/
theorem rounding_columns_spec (input : List SiteIn) (i : ℕ) (s : SiteIn)
    (h : input[i]? = some s) :
    ((run_financial_projections input).settlements)[i]? =
      some (roundSite (annotateSite s)) ∧
    (roundSite (annotateSite s)).system_size_kw =
      round1 ((annotateSite s).system_size_kw) ∧
    (roundSite (annotateSite s)).capex_estimate_usd =
      round1 ((annotateSite s).capex_estimate_usd) ∧
    (roundSite (annotateSite s)).revenue_annual_usd =
      round1 ((annotateSite s).revenue_annual_usd) ∧
    (roundSite (annotateSite s)).npv_10yr_usd =
      round1 ((annotateSite s).npv_10yr_usd) ∧
    (roundSite (annotateSite s)).payback_years =
      round1 ((annotateSite s).payback_years) ∧
    (roundSite (annotateSite s)).simple_yield_percent =
      round1 ((annotateSite s).simple_yield_percent) ∧
    (roundSite (annotateSite s)).opex_annual_usd =
      (annotateSite s).opex_annual_usd ∧
    (roundSite (annotateSite s)).annual_cashflow_usd =
      (annotateSite s).annual_cashflow_usd := by
  refine ⟨?_, rfl, rfl, rfl, rfl, rfl, rfl, rfl, rfl⟩
  show ((input.map annotateSite).map roundSite)[i]? = _
  simp [List.getElem?_map, h]

theorem rounding_columns_spec_witness :
    ((run_financial_projections [⟨1000, some 5.5, 33⟩]).settlements)[0]? =
      some (roundSite (annotateSite ⟨1000, some 5.5, 33⟩)) ∧
    (roundSite (annotateSite ⟨1000, some 5.5, 33⟩)).opex_annual_usd =
      (annotateSite ⟨1000, some 5.5, 33⟩).opex_annual_usd := by
  have h := rounding_columns_spec [⟨1000, some 5.5, 33⟩] 0 ⟨1000, some 5.5, 33⟩ rfl
  exact ⟨h.1, h.2.2.2.2.2.2.2.1⟩

/-! ### Claims about the Viability Scorer -/

/-- C5. `total_score` is the 0.25/0.25/0.20/0.15/0.15-weighted sum of the
five sub-scores; the weights sum to 1, so the total is a convex combination,
bounded by the least and greatest sub-score, hence inside [0,100] whenever
the sub-scores are. -/
theorem total_score_spec (m r c a s : ℚ) :
    total_score m r c a s =
      0.25 * m + 0.25 * r + 0.20 * c + 0.15 * a + 0.15 * s ∧
    min m (min r (min c (min a s))) ≤ total_score m r c a s ∧
    total_score m r c a s ≤ max m (max r (max c (max a s))) ∧
    (0 ≤ m ∧ m ≤ 100 → 0 ≤ r ∧ r ≤ 100 → 0 ≤ c ∧ c ≤ 100 →
      0 ≤ a ∧ a ≤ 100 → 0 ≤ s ∧ s ≤ 100 →
      0 ≤ total_score m r c a s ∧ total_score m r c a s ≤ 100) := by
  have hm1 : min m (min r (min c (min a s))) ≤ m := min_le_left _ _
  have hm2 : min m (min r (min c (min a s))) ≤ r :=
    le_trans (min_le_right _ _) (min_le_left _ _)
  have hm3 : min m (min r (min c (min a s))) ≤ c :=
    le_trans (min_le_right _ _) (le_trans (min_le_right _ _) (min_le_left _ _))
  have hm4 : min m (min r (min c (min a s))) ≤ a :=
    le_trans (min_le_right _ _)
      (le_trans (min_le_right _ _) (le_trans (min_le_right _ _) (min_le_left _ _)))
  have hm5 : min m (min r (min c (min a s))) ≤ s :=
    le_trans (min_le_right _ _)
      (le_trans (min_le_right _ _) (le_trans (min_le_right _ _) (min_le_right _ _)))
  have hx1 : m ≤ max m (max r (max c (max a s))) := le_max_left _ _
  have hx2 : r ≤ max m (max r (max c (max a s))) :=
    le_trans (le_max_left _ _) (le_max_right _ _)
  have hx3 : c ≤ max m (max r (max c (max a s))) :=
    le_trans (le_trans (le_max_left _ _) (le_max_right _ _)) (le_max_right _ _)
  have hx4 : a ≤ max m (max r (max c (max a s))) :=
    le_trans (le_trans (le_trans (le_max_left _ _) (le_max_right _ _))
      (le_max_right _ _)) (le_max_right _ _)
  have hx5 : s ≤ max m (max r (max c (max a s))) :=
    le_trans (le_trans (le_trans (le_max_right _ _) (le_max_right _ _))
      (le_max_right _ _)) (le_max_right _ _)
  have hts : total_score m r c a s =
      m * 0.25 + r * 0.25 + c * 0.20 + a * 0.15 + s * 0.15 := rfl
  refine ⟨by rw [hts]; ring, ?_, ?_, ?_⟩
  · rw [hts]
    linarith
  · rw [hts]
    linarith
  · intro h1 h2 h3 h4 h5
    rw [hts]
    constructor
    · linarith [h1.1, h2.1, h3.1, h4.1, h5.1]
    · linarith [h1.2, h2.2, h3.2, h4.2, h5.2]

theorem total_score_spec_witness :
    total_score 80 60 40 20 100 =
      0.25 * 80 + 0.25 * 60 + 0.20 * 40 + 0.15 * 20 + 0.15 * 100 ∧
    0 ≤ total_score 80 60 40 20 100 ∧ total_score 80 60 40 20 100 ≤ 100 := by
  have h := total_score_spec 80 60 40 20 100
  exact ⟨h.1, h.2.2.2 (by norm_num) (by norm_num) (by norm_num)
    (by norm_num) (by norm_num)⟩

theorem tier_eq_of_mem (scores : List ℚ) (r : RankedRow)
    (hr : r ∈ rank_and_tier scores) :
    r.tier = viability_tier r.total_score := by
  unfold rank_and_tier at hr
  simp only [List.mem_map] at hr
  obtain ⟨p, _, rfl⟩ := hr
  rfl

/-- C3 counterexample. A record with `total_score` exactly 0 is not
assigned tier Low: the `pd.cut` bins are left-open, so 0 falls outside
every bin and the tier label is missing. -/
theorem tier_zero_counterexample :
    (rank_and_tier [0]).map RankedRow.tier = [none] ∧
    (rank_and_tier [0]).map RankedRow.tier ≠ [some Tier.Low] := by
  have h : (rank_and_tier [0]).map RankedRow.tier = [none] := by
    norm_num [rank_and_tier, List.insertionSort, List.orderedInsert,
      viability_tier]
  exact ⟨h, by rw [h]; simp⟩

/-- C3 (amended). `viability_tier` is Low on `(0,40]`, Medium on `(40,70]`
and High on `(70,100]` of `total_score`; a score of exactly 40 is Low, while
a score of exactly 0 falls outside every bin and gets no tier (a missing
label), not Low. -/
theorem tier_spec (scores : List ℚ) :
    ∀ r ∈ rank_and_tier scores,
      (0 < r.total_score ∧ r.total_score ≤ 40 → r.tier = some Tier.Low) ∧
      (40 < r.total_score ∧ r.total_score ≤ 70 → r.tier = some Tier.Medium) ∧
      (70 < r.total_score ∧ r.total_score ≤ 100 → r.tier = some Tier.High) ∧
      (r.total_score = 0 → r.tier = none) := by
  intro r hr
  have ht := tier_eq_of_mem scores r hr
  refine ⟨?_, ?_, ?_, ?_⟩
  · intro h
    rw [ht]
    unfold viability_tier
    rw [if_pos h]
  · intro h
    rw [ht]
    unfold viability_tier
    rw [if_neg (fun hc => absurd hc.2 (not_le.mpr h.1)), if_pos h]
  · intro h
    rw [ht]
    unfold viability_tier
    rw [if_neg (fun hc => absurd hc.2 (not_le.mpr (lt_trans (by norm_num) h.1))),
      if_neg (fun hc => absurd hc.2 (not_le.mpr h.1)), if_pos h]
  · intro h
    rw [ht, h]
    norm_num [viability_tier]

theorem tier_spec_witness :
    (rank_and_tier [(40 : ℚ)]).map RankedRow.tier = [some Tier.Low] := by
  have hmem : (⟨0, (40 : ℚ), 1, viability_tier 40⟩ : RankedRow) ∈
      rank_and_tier [(40 : ℚ)] := by
    simp [rank_and_tier, List.insertionSort, List.orderedInsert]
  have h := (tier_spec [(40 : ℚ)] _ hmem).1 ⟨by norm_num, by norm_num⟩
  simp only [rank_and_tier, List.insertionSort, List.orderedInsert, List.enum,
    List.map] at h ⊢
  simpa using h

/-! ### C1: `normalize_score` -/

theorem foldl_min_le_init (t : List ℝ) (a : ℝ) : t.foldl min a ≤ a := by
  induction t generalizing a with
  | nil => exact le_refl a
  | cons b t' ih => exact le_trans (ih (min a b)) (min_le_left a b)

theorem foldl_min_le_mem (t : List ℝ) (a x : ℝ) (hx : x ∈ t) :
    t.foldl min a ≤ x := by
  induction t generalizing a with
  | nil => cases hx
  | cons b t' ih =>
    rcases List.mem_cons.mp hx with rfl | hx'
    · exact le_trans (foldl_min_le_init t' (min a x)) (min_le_right a x)
    · exact ih (min a b) hx'

theorem foldl_min_le (t : List ℝ) (a : ℝ) : ∀ x ∈ a :: t, t.foldl min a ≤ x := by
  intro x hx
  rcases List.mem_cons.mp hx with rfl | hx'
  · exact foldl_min_le_init t x
  · exact foldl_min_le_mem t a x hx'

theorem foldl_min_mem (t : List ℝ) (a : ℝ) : t.foldl min a ∈ a :: t := by
  induction t generalizing a with
  | nil => exact List.mem_singleton.mpr rfl
  | cons b t' ih =>
    have h := ih (min a b)
    rcases List.mem_cons.mp h with heq | hmem
    · rcases min_choice a b with h1 | h1
      · rw [show ((b :: t').foldl min a) = t'.foldl min (min a b) from rfl, heq,
          h1]
        exact List.mem_cons_self a (b :: t')
      · rw [show ((b :: t').foldl min a) = t'.foldl min (min a b) from rfl, heq,
          h1]
        exact List.mem_cons_of_mem a (List.mem_cons_self b t')
    · exact List.mem_cons_of_mem a (List.mem_cons_of_mem b hmem)

theorem le_foldl_max_init (t : List ℝ) (a : ℝ) : a ≤ t.foldl max a := by
  induction t generalizing a with
  | nil => exact le_refl a
  | cons b t' ih => exact le_trans (le_max_left a b) (ih (max a b))

theorem le_foldl_max_mem (t : List ℝ) (a x : ℝ) (hx : x ∈ t) :
    x ≤ t.foldl max a := by
  induction t generalizing a with
  | nil => cases hx
  | cons b t' ih =>
    rcases List.mem_cons.mp hx with rfl | hx'
    · exact le_trans (le_max_right a x) (le_foldl_max_init t' (max a x))
    · exact ih (max a b) hx'

theorem le_foldl_max (t : List ℝ) (a : ℝ) : ∀ x ∈ a :: t, x ≤ t.foldl max a := by
  intro x hx
  rcases List.mem_cons.mp hx with rfl | hx'
  · exact le_foldl_max_init t x
  · exact le_foldl_max_mem t a x hx'

theorem foldl_max_mem (t : List ℝ) (a : ℝ) : t.foldl max a ∈ a :: t := by
  induction t generalizing a with
  | nil => exact List.mem_singleton.mpr rfl
  | cons b t' ih =>
    have h := ih (max a b)
    rcases List.mem_cons.mp h with heq | hmem
    · rcases max_choice a b with h1 | h1
      · rw [show ((b :: t').foldl max a) = t'.foldl max (max a b) from rfl, heq,
          h1]
        exact List.mem_cons_self a (b :: t')
      · rw [show ((b :: t').foldl max a) = t'.foldl max (max a b) from rfl, heq,
          h1]
        exact List.mem_cons_of_mem a (List.mem_cons_self b t')
    · exact List.mem_cons_of_mem a (List.mem_cons_of_mem b hmem)

theorem fillAndTransform_length (series : List (Option ℝ)) (log_scale : Bool) :
    (fillAndTransform series log_scale).length = series.length := by
  unfold fillAndTransform
  cases log_scale <;> simp

theorem normalize_score_eq_nil (series : List (Option ℝ))
    (reverse log_scale : Bool) (h : fillAndTransform series log_scale = []) :
    normalize_score series reverse log_scale = [] := by
  unfold normalize_score
  rw [h]

theorem normalize_score_eq_cons (series : List (Option ℝ))
    (reverse log_scale : Bool) (a : ℝ) (t : List ℝ)
    (h : fillAndTransform series log_scale = a :: t) :
    normalize_score series reverse log_scale =
      if t.foldl max a = t.foldl min a then (a :: t).map (fun _ => 50)
      else if reverse then
        ((a :: t).map (fun x =>
          (x - t.foldl min a) / (t.foldl max a - t.foldl min a) * 100)).map
            (fun x => 100 - x)
      else (a :: t).map (fun x =>
        (x - t.foldl min a) / (t.foldl max a - t.foldl min a) * 100) := by
  unfold normalize_score
  rw [h]

theorem minmax_scale_bounds {mn mx x : ℝ} (hlt : mn < mx) (h1 : mn ≤ x)
    (h2 : x ≤ mx) :
    0 ≤ (x - mn) / (mx - mn) * 100 ∧ (x - mn) / (mx - mn) * 100 ≤ 100 := by
  have hd : 0 < mx - mn := sub_pos.mpr hlt
  constructor
  · exact mul_nonneg (div_nonneg (sub_nonneg.mpr h1) (le_of_lt hd)) (by norm_num)
  · have h3 : (x - mn) / (mx - mn) ≤ 1 := (div_le_one hd).mpr (by linarith)
    nlinarith

/-- C1. `normalize_score` preserves the column length; every output lies in
[0,100]; if the filled (and, when `log_scale`, log-transformed) values are
all identical every output is 50; otherwise the position holding the minimum
transformed value maps to 0 and the position holding the maximum maps to 100
(swapped to 100 and 0 when `reverse` is set). -/
theorem normalize_score_spec (series : List (Option ℝ))
    (reverse log_scale : Bool) :
    (normalize_score series reverse log_scale).length = series.length ∧
    (∀ y ∈ normalize_score series reverse log_scale, 0 ≤ y ∧ y ≤ 100) ∧
    ((∀ u ∈ fillAndTransform series log_scale,
        ∀ v ∈ fillAndTransform series log_scale, u = v) →
      ∀ y ∈ normalize_score series reverse log_scale, y = 50) ∧
    (∀ i : ℕ, ∀ m : ℝ, (fillAndTransform series log_scale)[i]? = some m →
      (∃ u ∈ fillAndTransform series log_scale,
        ∃ v ∈ fillAndTransform series log_scale, u ≠ v) →
      ((∀ x ∈ fillAndTransform series log_scale, m ≤ x) →
        (normalize_score series reverse log_scale)[i]? =
          some (if reverse then (100 : ℝ) else 0)) ∧
      ((∀ x ∈ fillAndTransform series log_scale, x ≤ m) →
        (normalize_score series reverse log_scale)[i]? =
          some (if reverse then (0 : ℝ) else 100))) := by
  cases ht : fillAndTransform series log_scale with
  | nil =>
    have hn := normalize_score_eq_nil series reverse log_scale ht
    have hlen : series.length = 0 := by
      rw [← fillAndTransform_length series log_scale, ht]
      rfl
    refine ⟨by rw [hn, hlen]; rfl, ?_, ?_, ?_⟩
    · intro y hy
      rw [hn] at hy
      cases hy
    · intro _ y hy
      rw [hn] at hy
      cases hy
    · intro i m hm
      rw [List.getElem?_nil] at hm
      cases hm
  | cons a t =>
    have hn := normalize_score_eq_cons series reverse log_scale a t ht
    have hlen : (a :: t).length = series.length := by
      rw [← fillAndTransform_length series log_scale, ht]
    have hminmem : t.foldl min a ∈ a :: t := foldl_min_mem t a
    have hmaxmem : t.foldl max a ∈ a :: t := foldl_max_mem t a
    have hminmax : t.foldl min a ≤ t.foldl max a :=
      le_foldl_max t a _ hminmem
    by_cases hdeg : t.foldl max a = t.foldl min a
    · -- degenerate column: every output is 50
      have hall : ∀ x ∈ a :: t, x = t.foldl min a := fun x hx =>
        le_antisymm (hdeg ▸ le_foldl_max t a x hx) (foldl_min_le t a x hx)
      have hout : normalize_score series reverse log_scale =
          (a :: t).map (fun _ => 50) := by rw [hn, if_pos hdeg]
      refine ⟨?_, ?_, ?_, ?_⟩
      · rw [hout, List.length_map, hlen]
      · intro y hy
        rw [hout] at hy
        obtain ⟨x, _, rfl⟩ := List.mem_map.mp hy
        norm_num
      · intro _ y hy
        rw [hout] at hy
        obtain ⟨x, _, rfl⟩ := List.mem_map.mp hy
        rfl
      · intro i m _ hex
        obtain ⟨u, hu, v, hv, huv⟩ := hex
        exact absurd ((hall u hu).trans (hall v hv).symm) huv
    · -- non-degenerate column: genuine min-max scaling
      have hlt : t.foldl min a < t.foldl max a :=
        lt_of_le_of_ne hminmax (fun h => hdeg h.symm)
      have hd : 0 < t.foldl max a - t.foldl min a := sub_pos.mpr hlt
      have hout : normalize_score series reverse log_scale =
          if reverse then
            ((a :: t).map (fun x =>
              (x - t.foldl min a) / (t.foldl max a - t.foldl min a) * 100)).map
                (fun x => 100 - x)
          else (a :: t).map (fun x =>
            (x - t.foldl min a) / (t.foldl max a - t.foldl min a) * 100) := by
        rw [hn, if_neg hdeg]
      refine ⟨?_, ?_, ?_, ?_⟩
      · rw [hout]
        cases reverse <;> simpa using hlen
      · intro y hy
        rw [hout] at hy
        cases reverse with
        | false =>
          simp only [if_neg Bool.false_ne_true] at hy
          obtain ⟨x, hx, rfl⟩ := List.mem_map.mp hy
          exact minmax_scale_bounds hlt (foldl_min_le t a x hx)
            (le_foldl_max t a x hx)
        | true =>
          simp only [if_pos rfl] at hy
          obtain ⟨z, hz, rfl⟩ := List.mem_map.mp hy
          obtain ⟨x, hx, rfl⟩ := List.mem_map.mp hz
          have hb := minmax_scale_bounds hlt (foldl_min_le t a x hx)
            (le_foldl_max t a x hx)
          constructor <;> linarith [hb.1, hb.2]
      · intro hall
        have h1 : t.foldl max a = t.foldl min a :=
          hall _ hmaxmem _ hminmem
        exact absurd h1 hdeg
      · intro i m hm _
        have hmmem : m ∈ a :: t := List.getElem?_mem hm
        constructor
        · intro hmin
          have hmeq : m = t.foldl min a :=
            le_antisymm (hmin _ hminmem) (foldl_min_le t a m hmmem)
          have hval : (m - t.foldl min a) / (t.foldl max a - t.foldl min a) *
              100 = 0 := by
            rw [hmeq]
            simp
          rw [hout]
          cases reverse with
          | false =>
            simp only [if_neg Bool.false_ne_true]
            rw [List.getElem?_map, hm]
            simp [hval]
          | true =>
            simp only [if_pos rfl, if_true]
            rw [List.getElem?_map, List.getElem?_map, hm]
            simp [hval]
        · intro hmax
          have hmeq : m = t.foldl max a :=
            le_antisymm (le_foldl_max t a m hmmem) (hmax _ hmaxmem)
          have hval : (m - t.foldl min a) / (t.foldl max a - t.foldl min a) *
              100 = 100 := by
            rw [hmeq, div_self (ne_of_gt hd), one_mul]
          rw [hout]
          cases reverse with
          | false =>
            simp only [if_neg Bool.false_ne_true]
            rw [List.getElem?_map, hm]
            simp [hval]
          | true =>
            simp only [if_pos rfl, if_true]
            rw [List.getElem?_map, List.getElem?_map, hm]
            simp [hval]

theorem normalize_score_spec_witness :
    (normalize_score [some 1, none, some 3] false false)[1]? = some 0 ∧
    (normalize_score [some 1, none, some 3] false false)[2]? = some 100 := by
  have h := normalize_score_spec [some 1, none, some 3] false false
  have ht : fillAndTransform [some 1, none, some 3] false = [1, 0, 3] := rfl
  have hex : ∃ u ∈ fillAndTransform [some 1, none, some 3] false,
      ∃ v ∈ fillAndTransform [some 1, none, some 3] false, u ≠ v := by
    rw [ht]
    exact ⟨1, by simp, 0, by simp, by norm_num⟩
  constructor
  · have h1 := (h.2.2.2 1 0 (by rw [ht]; rfl) hex).1 ?_
    · simpa using h1
    · rw [ht]
      intro x hx
      rcases List.mem_cons.mp hx with rfl | hx
      · norm_num
      rcases List.mem_cons.mp hx with rfl | hx
      · norm_num
      rcases List.mem_cons.mp hx with rfl | hx
      · norm_num
      · cases hx
  · have h2 := (h.2.2.2 2 3 (by rw [ht]; rfl) hex).2 ?_
    · simpa using h2
    · rw [ht]
      intro x hx
      rcases List.mem_cons.mp hx with rfl | hx
      · norm_num
      rcases List.mem_cons.mp hx with rfl | hx
      · norm_num
      rcases List.mem_cons.mp hx with rfl | hx
      · norm_num
      · cases hx

end SolarMinigrid
